import Mathlib

set_option linter.unusedVariables false

namespace SA

/-- Characters matched by Python's regex whitespace class (ASCII range),
used by `clean_text` and `str.strip`. -/
def isPySpace (c : Char) : Bool :=
  c = ' ' || c = '\t' || c = '\n' || c = '\r' || c = '\x0b' || c = '\x0c'

/-- Characters matched by Python's regex word class (ASCII range). -/
def isWordChar (c : Char) : Bool :=
  ('a' ≤ c && c ≤ 'z') || ('A' ≤ c && c ≤ 'Z') || ('0' ≤ c && c ≤ '9') || c = '_'

/-- ASCII model of Python `str.lower` on one character. -/
def lowerC (c : Char) : Char :=
  if 'A' ≤ c && c ≤ 'Z' then Char.ofNat (c.toNat + 32) else c

/-- ASCII model of Python `str.lower`. -/
def lowerS (s : String) : String := ⟨s.data.map lowerC⟩

/-- Boolean test: the first list is a prefix of the second. -/
def isPrefB : List Char → List Char → Bool
  | [], _ => true
  | _ :: _, [] => false
  | a :: as, b :: bs => a = b && isPrefB as bs

/-- Boolean test: the first list occurs as a contiguous run inside the second
(Python's substring operator on strings). -/
def subStrB (n : List Char) : List Char → Bool
  | [] => n.isEmpty
  | c :: rest => isPrefB n (c :: rest) || subStrB n rest

/-- Python `needle in hay` for strings. -/
def containsSub (needle hay : String) : Bool := subStrB needle.data hay.data

/-- Drop leading Python whitespace from a character list. -/
def dropLeading : List Char → List Char
  | [] => []
  | c :: cs => if isPySpace c then dropLeading cs else c :: cs

/-- Python `str.strip` on a character list: drop whitespace at both ends. -/
def stripL (l : List Char) : List Char :=
  (dropLeading ((dropLeading l).reverse)).reverse

/-- Python `str.strip`. -/
def pyStrip (s : String) : String := ⟨stripL s.data⟩

/-- Python str.split on a comma: every comma is a separator; empty segments are
kept; the empty string yields one empty segment. -/
def splitCommaL : List Char → List (List Char)
  | [] => [[]]
  | c :: cs =>
    if c = ',' then [] :: splitCommaL cs
    else
      match splitCommaL cs with
      | [] => [[c]]
      | g :: gs => (c :: g) :: gs

def splitComma (s : String) : List String := (splitCommaL s.data).map String.mk

/-- app.py `handle_update_config` line 166: split the incoming search_terms
string on commas and strip each piece. -/
def parseTerms (s : String) : List String := (splitComma s).map pyStrip

/-- Does a list start with a non-space character? -/
def headNonSpace : List Char → Bool
  | [] => false
  | d :: _ => !isPySpace d

/-- Does a list start with a word character? -/
def headWord : List Char → Bool
  | [] => false
  | d :: _ => isWordChar d

/-- sentiment_analyzer.clean_text step 1: the re.sub removing URL-like runs
(pattern alternatives http, www, https, each followed by one or more non-space
characters). A match begins at http or www followed by a non-space character
and greedily covers the whole non-space run; the `skip` flag means the scanner
is inside such a run and keeps dropping characters until whitespace ends it. -/
def stripUrlsA (skip : Bool) : List Char → List Char
  | [] => []
  | c :: cs =>
    if skip && !isPySpace c then stripUrlsA true cs
    else if (isPrefB ['h', 't', 't', 'p'] (c :: cs) && headNonSpace (cs.drop 3))
        || (isPrefB ['w', 'w', 'w'] (c :: cs) && headNonSpace (cs.drop 2)) then
      stripUrlsA true cs
    else c :: stripUrlsA false cs

def stripUrls (l : List Char) : List Char := stripUrlsA false l

/-- sentiment_analyzer.clean_text step 2: the re.sub removing mentions and
hashtags. A match is an at-sign or hash followed by at least one word
character; `skip` means the scanner is inside the run of a match. -/
def stripTagsA (skip : Bool) : List Char → List Char
  | [] => []
  | c :: cs =>
    if skip && isWordChar c then stripTagsA true cs
    else if (c = '@' || c = '#') && headWord cs then stripTagsA true cs
    else c :: stripTagsA false cs

def stripTags (l : List Char) : List Char := stripTagsA false l

/-- sentiment_analyzer.clean_text step 3: the re.sub replacing each maximal
whitespace run with a single space; `inRun` means the scanner is inside a
whitespace run whose replacement space was already emitted. -/
def collapseWsA (inRun : Bool) : List Char → List Char
  | [] => []
  | c :: cs =>
    if isPySpace c then
      if inRun then collapseWsA true cs else ' ' :: collapseWsA true cs
    else c :: collapseWsA false cs

def collapseWs (l : List Char) : List Char := collapseWsA false l

/-- sentiment_analyzer.clean_text: strip URLs, then mentions and hashtags,
then collapse whitespace runs to single spaces and strip the ends. -/
def clean_text (s : String) : String :=
  ⟨stripL (collapseWs (stripTags (stripUrls s.data)))⟩

inductive Sentiment where
  | positive
  | negative
  | neutral
deriving DecidableEq, Repr

def apos : Char := '\''

def aposS : String := String.mk [apos]

/-- sentiment_analyzer.py positive word lexicon. -/
def positive_words : List String :=
  ["good", "great", "awesome", "excellent", "like", "love", "happy", "best",
   "better", "amazing", "wonderful", "fantastic", "nice", "perfect", "enjoy",
   "beautiful", "brilliant", "outstanding", "superb", "helpful", "positive"]

/-- sentiment_analyzer.py negative word lexicon. -/
def negative_words : List String :=
  ["bad", "worst", "terrible", "awful", "hate", "dislike", "sad", "disappointing",
   "sucks", "poor", "horrible", "useless", "wrong", "waste", "annoying", "tough",
   "negative", "slow", "broken", "difficult", "angry", "boring", "fail"]

/-- sentiment_analyzer.py negation tokens. -/
def negations : List String :=
  ["not", "don" ++ aposS ++ "t", "doesn" ++ aposS ++ "t", "no", "never",
   "isn" ++ aposS ++ "t", "aren" ++ aposS ++ "t", "wasn" ++ aposS ++ "t",
   "weren" ++ aposS ++ "t"]

/-- `sum(1 for word in ws if word in text)` as in `_basic_sentiment_analysis`. -/
def countHits (ws : List String) (t : String) : Int :=
  ws.foldl (fun a w => if containsSub w t then a + 1 else a) 0

/-- Condition under which `_basic_sentiment_analysis` flips one match: the
phrase negation-space-word, or negation-space-really-space-word, occurs in the
text. -/
def flipTrigger (t neg w : String) : Bool :=
  containsSub (neg ++ " " ++ w) t || containsSub (neg ++ " really " ++ w) t

/-- The negation pass of `_basic_sentiment_analysis`: for every negation token
present in the text, for every positive word whose negated phrase occurs,
decrement the positive count and increment the negative count. -/
def negFlip (t : String) (pn : Int × Int) : Int × Int :=
  negations.foldl
    (fun pn neg =>
      if containsSub neg t then
        positive_words.foldl
          (fun pn w => if flipTrigger t neg w then (pn.1 - 1, pn.2 + 1) else pn) pn
      else pn) pn

/-- Positive/negative counts computed by `_basic_sentiment_analysis` after the
lowercase step, the lexicon counting step, and the negation pass. -/
def basicPN (s : String) : Int × Int :=
  let text := lowerS s
  negFlip text (countHits positive_words text, countHits negative_words text)

/-- sentiment_analyzer._basic_sentiment_analysis. -/
def basic_sentiment_analysis (s : String) : Sentiment :=
  let pn := basicPN s
  if pn.1 > pn.2 then .positive
  else if pn.2 > pn.1 then .negative
  else .neutral

/-- sentiment_analyzer.analyze. The statistical (transformers) branch is
abstracted as `stat`: it returns `none` when the model is disabled, failed to
load, or raised during inference, in which case the code falls through to
`_basic_sentiment_analysis`; when it returns a label that label is one of the
three `Sentiment` values (the code draws it from the negative/positive label
list or substitutes neutral below the 0.65 confidence threshold). -/
def analyze (stat : String → Option Sentiment) (text : String) : Sentiment :=
  let cleaned := clean_text text
  if cleaned = "" then .neutral
  else
    match stat cleaned with
    | some s => s
    | none => basic_sentiment_analysis cleaned

/-- The analyzer as constructed in low-memory mode (`use_transformers=False`):
the lexicon strategy is the only one that runs. -/
def analyzeLex (text : String) : Sentiment := analyze (fun _ => none) text

inductive Source where
  | twitter
  | reddit
deriving DecidableEq, Repr

/-- One classified dashboard item, as stored in the recent_items list of
sentiment_data. -/
structure Item where
  text : String
  source : Source
  timestamp : Int
  sentiment : Sentiment
  url : Option String
deriving DecidableEq, Repr

/-- The global `sentiment_data` dict of app.py. -/
structure AggState where
  positive : Nat
  negative : Nat
  neutral : Nat
  twitter : Nat
  reddit : Nat
  recent_items : List Item
deriving DecidableEq, Repr

/-- app.py `reset_sentiment_data` / the initial `sentiment_data`. -/
def emptyState : AggState := ⟨0, 0, 0, 0, 0, []⟩

/-- One item's counter increments in `analyze_content` (both the demo branch
and the live branch): bump the item's source counter and its sentiment counter. -/
def bump (st : AggState) (it : Item) : AggState :=
  let st :=
    match it.source with
    | .twitter => { st with twitter := st.twitter + 1 }
    | .reddit => { st with reddit := st.reddit + 1 }
  match it.sentiment with
  | .positive => { st with positive := st.positive + 1 }
  | .negative => { st with negative := st.negative + 1 }
  | .neutral => { st with neutral := st.neutral + 1 }

def mergeCounters (st : AggState) (items : List Item) : AggState :=
  items.foldl bump st

/-- app.py line 335: `max_stored = 50 if low_memory_mode else 100`. -/
def max_stored (lowMem : Bool) : Nat := if lowMem then 50 else 100

/-- app.py line 338: recent_items becomes the new items concatenated before
the old ones, truncated to max_stored. -/
def updateRecent (lowMem : Bool) (newItems : List Item) (st : AggState) : AggState :=
  { st with recent_items := (newItems ++ st.recent_items).take (max_stored lowMem) }

/-- One merge cycle of `analyze_content`: bump every item's counters, then
prepend the cycle's items to the bounded recent buffer. -/
def loopCycleMerge (lowMem : Bool) (st : AggState) (items : List Item) : AggState :=
  updateRecent lowMem items (mergeCounters st items)

/-- One cycle of `minimal_data_thread` (the degraded mode after an
initialization error): only the recent buffer is updated; no counter moves. -/
def minimalCycleMerge (lowMem : Bool) (st : AggState) (items : List Item) : AggState :=
  updateRecent lowMem items st

def countsSum (st : AggState) : Nat := st.positive + st.negative + st.neutral

def sourceSum (st : AggState) : Nat := st.twitter + st.reddit

/-- The `config` dict of app.py. -/
structure Config where
  search_terms : List String
  max_items : Int
deriving DecidableEq, Repr

/-- An inbound `update_config` message: each field optional. -/
structure UpdateMsg where
  search_terms : Option String
  max_items : Option Int
deriving DecidableEq, Repr

/-- app.py lines 176-177: in low-memory mode a requested `max_items` above 100
is clamped to 100. -/
def clampMax (lowMem : Bool) (m : Int) : Int :=
  if lowMem && m > 100 then 100 else m

/-- The mutation part of app.py `handle_update_config`: apply each provided
field when its resolved value differs from the current one, tracking whether
any field actually changed. -/
def applyUpdate (lowMem : Bool) (cfg : Config) (d : UpdateMsg) : Config × Bool :=
  let step1 : Config × Bool :=
    match d.search_terms with
    | none => (cfg, false)
    | some s =>
      let new_terms := parseTerms s
      if new_terms ≠ cfg.search_terms then ({ cfg with search_terms := new_terms }, true)
      else (cfg, false)
  match d.max_items with
  | none => step1
  | some raw =>
    let new_max := clampMax lowMem raw
    if new_max ≠ step1.1.max_items then ({ step1.1 with max_items := new_max }, true)
    else step1

/-- Observable outcome of one `update_config` request: the configuration after
the handler, the aggregation state after it (reset iff a change was made), and
whether `refresh_config.set()` and the `config_data` rebroadcast happened. -/
structure HandlerOutcome where
  config : Config
  state : AggState
  signal : Bool
  rebroadcast : Bool

/-- app.py `handle_update_config`: mutate the config, and iff an update was
made, reset the aggregation state, set the refresh signal, and rebroadcast. -/
def handle_update_config (lowMem : Bool) (cfg : Config) (st : AggState)
    (d : UpdateMsg) : HandlerOutcome :=
  let r := applyUpdate lowMem cfg d
  if r.2 then ⟨r.1, emptyState, true, true⟩ else ⟨r.1, st, false, false⟩

/-- Value the `search_terms` field resolves to for a given request. -/
def resolvedTerms (cfg : Config) (d : UpdateMsg) : List String :=
  match d.search_terms with
  | none => cfg.search_terms
  | some s => parseTerms s

/-- Value the `max_items` field resolves to (after the low-memory clamp). -/
def resolvedMax (lowMem : Bool) (cfg : Config) (d : UpdateMsg) : Int :=
  match d.max_items with
  | none => cfg.max_items
  | some m => clampMax lowMem m

inductive FetchErr where
  | rateLimit
  | unauthorized
  | other
deriving DecidableEq, Repr

/-- A raw item returned by an external API client. -/
structure RawItem where
  text : String
  created_at : Int
  url : String
deriving DecidableEq, Repr

def okItems : Except FetchErr (List RawItem) → List RawItem
  | .ok l => l
  | .error _ => []

def isOkB : Except FetchErr (List RawItem) → Bool
  | .ok _ => true
  | .error _ => false

/-- Loop body of `TwitterCollector.collect`, lines 52-80. `fetch t k` models
`search_recent_tweets` for term `t` with `max_results = k`; an `Except.error`
models a raised `tweepy` exception, which the surrounding `except` clauses
catch, returning the `results` accumulated so far. On success the whole batch
is appended, then the loop breaks once `len(results) >= max_count`. -/
def twitterGo (fetch : String → Nat → Except FetchErr (List RawItem))
    (maxCount : Nat) : List String → List RawItem → List RawItem
  | [], acc => acc
  | t :: rest, acc =>
    match fetch t (min maxCount 10) with
    | .error _ => acc
    | .ok items =>
      let acc2 := acc ++ items
      if maxCount ≤ acc2.length then acc2 else twitterGo fetch maxCount rest acc2

/-- `TwitterCollector.collect`: empty when no client was initialized. -/
def twitterCollect (hasClient : Bool) (fetch : String → Nat → Except FetchErr (List RawItem))
    (terms : List String) (maxCount : Nat) : List RawItem :=
  if hasClient then twitterGo fetch maxCount terms [] else []

/-- Loop body of `RedditCollector.collect`, lines 134-164. `fetch t k` models
the subreddit search call with limit k; a per-term error is caught by the
inner `except` which `continue`s with the next term (skipping that iteration's
break check). Successful submissions are appended one at a time, each guarded
by `len(results) >= max_count`. -/
def redditGo (fetch : String → Nat → Except FetchErr (List RawItem))
    (maxCount : Nat) : List String → List RawItem → List RawItem
  | [], acc => acc
  | t :: rest, acc =>
    match fetch t maxCount with
    | .error _ => redditGo fetch maxCount rest acc
    | .ok items =>
      let acc2 := acc ++ items.take (maxCount - acc.length)
      if maxCount ≤ acc2.length then acc2 else redditGo fetch maxCount rest acc2

/-- `RedditCollector.collect`: empty when no client was initialized. -/
def redditCollect (hasClient : Bool) (fetch : String → Nat → Except FetchErr (List RawItem))
    (terms : List String) (maxCount : Nat) : List RawItem :=
  if hasClient then redditGo fetch maxCount terms [] else []

/-- Result of `P.map (fun t => okItems (fetch t (min m 10)))` flattened:
the items gathered from a run of successful Twitter requests. -/
def gathered (fetch : String → Nat → Except FetchErr (List RawItem)) (m : Nat) :
    List String → List RawItem
  | [] => []
  | t :: rest => okItems (fetch t (min m 10)) ++ gathered fetch m rest

/-- One item's worth of random draws in `generate_sample_data`:
`random.choice(sample_texts)`, `random.choice(sources)`,
`random.randint(1, 60)`, and the weighted `random.choices` fallback label. -/
structure SampleRand where
  textIdx : Nat
  sourceIdx : Nat
  minutes : Nat
  fallback : Sentiment

/-- app.py `sample_texts` pool. -/
def sample_texts : List String :=
  ["I love this new product! It" ++ aposS ++ "s amazing and works perfectly.",
   "The service was terrible and the staff was rude.",
   "Just bought the latest smartphone and it" ++ aposS ++ "s okay, nothing special.",
   "Can" ++ aposS ++ "t believe how bad the weather is today.",
   "The movie was fantastic, highly recommend watching it.",
   "This restaurant has the best food in town!",
   "So disappointed with my recent purchase, it broke after one use.",
   "Not sure how I feel about the new update, some good features but also some problems.",
   "The concert last night was incredible!",
   "Just had a mediocre experience at the new cafe downtown."]

/-- app.py `generate_sample_data`: draw `count` items from the fixed text pool,
a random source, a timestamp jittered 1-60 minutes into the past, and a
sentiment from the analyzer when available (`classify = some f`), otherwise
from the weighted random fallback draw. -/
def generate_sample_data (classify : Option (String → Sentiment)) (now : Int)
    (rand : Nat → SampleRand) (count : Nat) : List Item :=
  (List.range count).map fun i =>
    let r := rand i
    let text := sample_texts.getD (r.textIdx % sample_texts.length) ""
    let source := if r.sourceIdx % 2 = 0 then Source.twitter else Source.reddit
    let timestamp := now - (((r.minutes % 60) + 1) : Int) * 60
    let sentiment :=
      match classify with
      | some f => f text
      | none => r.fallback
    { text := text, source := source, timestamp := timestamp,
      sentiment := sentiment, url := some "https://example.com/sample" }

/-- The demo branch of one `analyze_content` cycle, lines 283-288: the config
snapshot is read (then unused by this branch) and `5 if low_memory_mode else
10` sample items are generated. -/
def demoCycle (cfg : Config) (lowMem : Bool) (classify : Option (String → Sentiment))
    (now : Int) (rand : Nat → SampleRand) : List Item :=
  let _search_terms := cfg.search_terms
  let _max_items := cfg.max_items
  let sample_count := if lowMem then 5 else 10
  generate_sample_data classify now rand sample_count

/-- Number of flips the negation pass performs: one per (negation token in the
text, positive word) pair whose negated phrase occurs in the text. -/
def flipCount (t : String) : Int :=
  (negations.map (fun neg =>
    if containsSub neg t then (positive_words.countP (flipTrigger t neg) : Int) else 0)).sum

/-- A concrete item used in counterexamples. -/
def sampleItem : Item :=
  ⟨"sample", Source.twitter, 0, Sentiment.positive, none⟩

def dummyRaw : RawItem := ⟨"t", 0, "u"⟩

/-- An oracle that fails on term "a" and succeeds elsewhere. -/
def errFetch : String → Nat → Except FetchErr (List RawItem) :=
  fun t _ => if t = "a" then Except.error FetchErr.rateLimit else Except.ok [dummyRaw]

/-- An oracle that returns exactly as many items as each request allows. -/
def overFetch : String → Nat → Except FetchErr (List RawItem) :=
  fun _ n => Except.ok (List.replicate n dummyRaw)

/-- A statistical strategy stub that always reports positive. -/
def statPos : String → Option Sentiment := fun _ => some Sentiment.positive

lemma bump_recent (st : AggState) (it : Item) :
    (bump st it).recent_items = st.recent_items := by
  cases hs : it.source <;> cases ht : it.sentiment <;> simp [bump, hs, ht]

lemma bump_countsSum (st : AggState) (it : Item) :
    countsSum (bump st it) = countsSum st + 1 := by
  cases hs : it.source <;> cases ht : it.sentiment <;>
    simp [bump, hs, ht, countsSum] <;> omega

lemma bump_sourceSum (st : AggState) (it : Item) :
    sourceSum (bump st it) = sourceSum st + 1 := by
  cases hs : it.source <;> cases ht : it.sentiment <;>
    simp [bump, hs, ht, sourceSum] <;> omega

lemma mergeCounters_recent (items : List Item) :
    ∀ st : AggState, (mergeCounters st items).recent_items = st.recent_items := by
  induction items with
  | nil => intro st; rfl
  | cons it items ih =>
    intro st
    simp only [mergeCounters, List.foldl_cons]
    rw [show (List.foldl bump (bump st it) items) = mergeCounters (bump st it) items from rfl,
      ih, bump_recent]

lemma mergeCounters_countsSum (items : List Item) :
    ∀ st : AggState, countsSum (mergeCounters st items) = countsSum st + items.length := by
  induction items with
  | nil => intro st; rfl
  | cons it items ih =>
    intro st
    simp only [mergeCounters, List.foldl_cons, List.length_cons]
    rw [show (List.foldl bump (bump st it) items) = mergeCounters (bump st it) items from rfl,
      ih, bump_countsSum]
    omega

lemma mergeCounters_sourceSum (items : List Item) :
    ∀ st : AggState, sourceSum (mergeCounters st items) = sourceSum st + items.length := by
  induction items with
  | nil => intro st; rfl
  | cons it items ih =>
    intro st
    simp only [mergeCounters, List.foldl_cons, List.length_cons]
    rw [show (List.foldl bump (bump st it) items) = mergeCounters (bump st it) items from rfl,
      ih, bump_sourceSum]
    omega

lemma loopCycleMerge_countsSum (lowMem : Bool) (st : AggState) (items : List Item) :
    countsSum (loopCycleMerge lowMem st items) = countsSum st + items.length := by
  simp only [loopCycleMerge, updateRecent, countsSum]
  have := mergeCounters_countsSum items st
  simpa [countsSum] using this

lemma loopCycleMerge_sourceSum (lowMem : Bool) (st : AggState) (items : List Item) :
    sourceSum (loopCycleMerge lowMem st items) = sourceSum st + items.length := by
  simp only [loopCycleMerge, updateRecent, sourceSum]
  have := mergeCounters_sourceSum items st
  simpa [sourceSum] using this

lemma cycles_countsSum (lowMem : Bool) (cycles : List (List Item)) :
    ∀ st : AggState, countsSum (cycles.foldl (loopCycleMerge lowMem) st)
      = countsSum st + (cycles.map List.length).sum := by
  induction cycles with
  | nil => intro st; simp
  | cons c cycles ih =>
    intro st
    simp only [List.foldl_cons, List.map_cons, List.sum_cons]
    rw [ih, loopCycleMerge_countsSum]
    omega

lemma cycles_sourceSum (lowMem : Bool) (cycles : List (List Item)) :
    ∀ st : AggState, sourceSum (cycles.foldl (loopCycleMerge lowMem) st)
      = sourceSum st + (cycles.map List.length).sum := by
  induction cycles with
  | nil => intro st; simp
  | cons c cycles ih =>
    intro st
    simp only [List.foldl_cons, List.map_cons, List.sum_cons]
    rw [ih, loopCycleMerge_sourceSum]
    omega

/-- Claim C2, counterexample: in the degraded sample-data mode
(`minimal_data_thread`, run after an initialization error), an item is merged
into AggregationState's recent buffer while no sentiment counter moves, so
counts[positive] + counts[negative] + counts[neutral] (= 0) differs from the
number of items merged since the last reset (= 1). -/
theorem C2_minimal_thread_counterexample :
    countsSum (minimalCycleMerge true emptyState [sampleItem]) = 0
    ∧ (minimalCycleMerge true emptyState [sampleItem]).recent_items = [sampleItem]
    ∧ countsSum (minimalCycleMerge true emptyState [sampleItem])
        ≠ (minimalCycleMerge true emptyState [sampleItem]).recent_items.length := by
  decide

/-- Claim C2 (amended): each item merged by the collection loop
(`analyze_content`, demo branch and live branch alike) increments exactly one
sentiment counter and exactly one source counter, so after any sequence of
loop merge cycles since the last reset, counts[positive] + counts[negative] +
counts[neutral] equals the total number of items merged, and likewise for the
source counters; the degraded `minimal_data_thread` mode is the exception — it
updates only recent_items and moves no counter. -/
theorem C2_counts_sum_invariant :
    (∀ (st : AggState) (it : Item),
        countsSum (bump st it) = countsSum st + 1
        ∧ sourceSum (bump st it) = sourceSum st + 1)
    ∧ (∀ (lowMem : Bool) (cycles : List (List Item)),
        countsSum (cycles.foldl (loopCycleMerge lowMem) emptyState)
            = (cycles.map List.length).sum
        ∧ sourceSum (cycles.foldl (loopCycleMerge lowMem) emptyState)
            = (cycles.map List.length).sum) := by
  refine ⟨fun st it => ⟨bump_countsSum st it, bump_sourceSum st it⟩, fun lowMem cycles => ⟨?_, ?_⟩⟩
  · rw [cycles_countsSum]
    simp [countsSum, emptyState]
  · rw [cycles_sourceSum]
    simp [sourceSum, emptyState]

/-- Claim C3: after every merge of the collection loop, recent_items holds at
most max_stored entries (50 in low-memory mode, 100 otherwise), and equals the
cycle's new items followed by the previous buffer, truncated to max_stored,
dropping the oldest entries. -/
theorem C3_recent_items_bound :
    ∀ (lowMem : Bool) (items : List Item) (st : AggState),
      (loopCycleMerge lowMem st items).recent_items.length ≤ max_stored lowMem
      ∧ (loopCycleMerge lowMem st items).recent_items
          = items.take (max_stored lowMem)
            ++ st.recent_items.take (max_stored lowMem - items.length)
      ∧ max_stored true = 50 ∧ max_stored false = 100 := by
  intro lowMem items st
  have hrec : (loopCycleMerge lowMem st items).recent_items
      = (items ++ st.recent_items).take (max_stored lowMem) := by
    simp only [loopCycleMerge, updateRecent]
    rw [mergeCounters_recent]
  refine ⟨?_, ?_, rfl, rfl⟩
  · rw [hrec]
    simp [List.length_take]
  · rw [hrec, List.take_append_eq_append_take]

/-- Claim C10: the demo branch of a collection cycle reads the configuration
snapshot but its generated items depend only on the memory mode, the
classifier, the clock and the random draws — two different configurations
making the same random choices produce identical items and identical merges,
and the per-cycle item count is 5 in low-memory mode and 10 otherwise. -/
theorem C10_demo_independent_of_config :
    ∀ (cfg cfg' : Config) (lowMem : Bool) (classify : Option (String → Sentiment))
      (now : Int) (rand : Nat → SampleRand) (st : AggState),
      demoCycle cfg lowMem classify now rand = demoCycle cfg' lowMem classify now rand
      ∧ (demoCycle cfg lowMem classify now rand).length = (if lowMem then 5 else 10)
      ∧ loopCycleMerge lowMem st (demoCycle cfg lowMem classify now rand)
          = loopCycleMerge lowMem st (demoCycle cfg' lowMem classify now rand) := by
  intro cfg cfg' lowMem classify now rand st
  refine ⟨rfl, ?_, rfl⟩
  simp only [demoCycle, generate_sample_data, List.length_map, List.length_range]

lemma applyUpdate_eq (lowMem : Bool) (cfg : Config) (d : UpdateMsg) :
    applyUpdate lowMem cfg d
      = (⟨resolvedTerms cfg d, resolvedMax lowMem cfg d⟩,
         !(decide (resolvedTerms cfg d = cfg.search_terms)
           && decide (resolvedMax lowMem cfg d = cfg.max_items))) := by
  rcases d with ⟨os, om⟩
  rcases cfg with ⟨terms, mx⟩
  cases os with
  | none =>
    cases om with
    | none => simp [applyUpdate, resolvedTerms, resolvedMax]
    | some raw =>
      by_cases h : clampMax lowMem raw = mx <;>
        simp [applyUpdate, resolvedTerms, resolvedMax, h]
  | some s =>
    cases om with
    | none =>
      by_cases h : parseTerms s = terms <;>
        simp [applyUpdate, resolvedTerms, resolvedMax, h]
    | some raw =>
      by_cases h : parseTerms s = terms <;>
        by_cases h2 : clampMax lowMem raw = mx <;>
          simp [applyUpdate, resolvedTerms, resolvedMax, h, h2]

/-- Claim C1: `handle_update_config` resolves each provided field (with the
low-memory clamp on max_items: a request above 100 resolves to 100 when the
low-memory mode is on), and the state reset, refresh signal and configuration
rebroadcast happen if and only if some field's resolved value differs from its
current value; a request resolving to the current values triggers nothing. -/
theorem C1_update_config_change_detection :
    ∀ (lowMem : Bool) (cfg : Config) (st : AggState) (d : UpdateMsg),
      (handle_update_config lowMem cfg st d).config
          = ⟨resolvedTerms cfg d, resolvedMax lowMem cfg d⟩
      ∧ ((handle_update_config lowMem cfg st d).signal = true
          ↔ ¬(resolvedTerms cfg d = cfg.search_terms
              ∧ resolvedMax lowMem cfg d = cfg.max_items))
      ∧ (handle_update_config lowMem cfg st d).rebroadcast
          = (handle_update_config lowMem cfg st d).signal
      ∧ (handle_update_config lowMem cfg st d).state
          = (if (handle_update_config lowMem cfg st d).signal = true then emptyState else st)
      ∧ (∀ m : Int, d.max_items = some m → lowMem = true → 100 < m →
          (handle_update_config lowMem cfg st d).config.max_items = 100) := by
  intro lowMem cfg st d
  have happ := applyUpdate_eq lowMem cfg d
  have hcfg1 : (applyUpdate lowMem cfg d).1
      = ⟨resolvedTerms cfg d, resolvedMax lowMem cfg d⟩ := by rw [happ]
  have hb : (applyUpdate lowMem cfg d).2
      = !(decide (resolvedTerms cfg d = cfg.search_terms)
          && decide (resolvedMax lowMem cfg d = cfg.max_items)) := by rw [happ]
  have hconfig : (handle_update_config lowMem cfg st d).config
      = ⟨resolvedTerms cfg d, resolvedMax lowMem cfg d⟩ := by
    simp only [handle_update_config]
    by_cases h : (applyUpdate lowMem cfg d).2 = true
    · simp [h, hcfg1]
    · simp only [Bool.not_eq_true] at h
      simp [h, hcfg1]
  have hsig : (handle_update_config lowMem cfg st d).signal = (applyUpdate lowMem cfg d).2 := by
    simp only [handle_update_config]
    by_cases h : (applyUpdate lowMem cfg d).2 = true
    · simp [h]
    · simp only [Bool.not_eq_true] at h
      simp [h]
  have hreb : (handle_update_config lowMem cfg st d).rebroadcast
      = (applyUpdate lowMem cfg d).2 := by
    simp only [handle_update_config]
    by_cases h : (applyUpdate lowMem cfg d).2 = true
    · simp [h]
    · simp only [Bool.not_eq_true] at h
      simp [h]
  have hstate : (handle_update_config lowMem cfg st d).state
      = (if (applyUpdate lowMem cfg d).2 = true then emptyState else st) := by
    simp only [handle_update_config]
    by_cases h : (applyUpdate lowMem cfg d).2 = true
    · simp [h]
    · simp only [Bool.not_eq_true] at h
      simp [h]
  refine ⟨hconfig, ?_, ?_, ?_, ?_⟩
  · rw [hsig, hb]
    simp
    tauto
  · rw [hreb, hsig]
  · rw [hstate, hsig]
  · intro m hm hlow hgt
    rw [hconfig]
    show resolvedMax lowMem cfg d = 100
    simp [resolvedMax, hm, clampMax, hlow, hgt]

/-- Witness for C1: in low-memory mode a request for max_items = 150 on a
config currently at 50 resolves to the clamp value 100. -/
theorem C1_update_config_witness :
    (handle_update_config true ⟨["python"], 50⟩ emptyState ⟨none, some 150⟩).config.max_items
      = 100 :=
  (C1_update_config_change_detection true ⟨["python"], 50⟩ emptyState ⟨none, some 150⟩).2.2.2.2
    150 rfl rfl (by decide)

lemma sentimentCases (x : Sentiment) :
    x = Sentiment.positive ∨ x = Sentiment.negative ∨ x = Sentiment.neutral := by
  cases x <;> simp

/-- Claim C4: `analyze` is total with a result among the three labels for every
input and every outcome of the statistical strategy, and any input whose
cleaned form is empty — in particular "", "   ", and "http://x.com #tag @user"
— yields neutral before either strategy runs. -/
theorem C4_analyze_total_neutral_on_empty :
    (∀ (stat : String → Option Sentiment) (s : String),
        analyze stat s = Sentiment.positive ∨ analyze stat s = Sentiment.negative
          ∨ analyze stat s = Sentiment.neutral)
    ∧ (∀ (stat : String → Option Sentiment) (s : String),
        clean_text s = "" → analyze stat s = Sentiment.neutral)
    ∧ (∀ stat : String → Option Sentiment, analyze stat "" = Sentiment.neutral)
    ∧ (∀ stat : String → Option Sentiment, analyze stat "   " = Sentiment.neutral)
    ∧ (∀ stat : String → Option Sentiment,
        analyze stat "http://x.com #tag @user" = Sentiment.neutral)
    ∧ clean_text "http://x.com #tag @user" = "" := by
  have hempty : ∀ (stat : String → Option Sentiment) (s : String),
      clean_text s = "" → analyze stat s = Sentiment.neutral := by
    intro stat s h
    simp [analyze, h]
  refine ⟨fun stat s => sentimentCases _, hempty, ?_, ?_, ?_, by decide⟩
  · exact fun stat => hempty stat "" (by decide)
  · exact fun stat => hempty stat "   " (by decide)
  · exact fun stat => hempty stat "http://x.com #tag @user" (by decide)

/-- Witness for C4: even with a statistical strategy that always answers
positive, the URL-mention-hashtag input cleans to the empty string and is
classified neutral. -/
theorem C4_analyze_witness :
    analyze statPos "http://x.com #tag @user" = Sentiment.neutral :=
  C4_analyze_total_neutral_on_empty.2.1 statPos "http://x.com #tag @user" (by decide)

lemma countHits_eq_countP (ws : List String) (t : String) :
    countHits ws t = (ws.countP (fun w => containsSub w t) : Int) := by
  have h : ∀ (l : List String) (a : Int),
      l.foldl (fun a w => if containsSub w t then a + 1 else a) a
        = a + (l.countP (fun w => containsSub w t) : Int) := by
    intro l
    induction l with
    | nil => intro a; simp
    | cons w l ih =>
      intro a
      by_cases hw : containsSub w t
      · simp only [List.foldl_cons, hw, if_true, ih, List.countP_cons, decide_eq_true_eq]
        push_cast
        ring
      · simp only [List.foldl_cons, hw, if_false, ih, List.countP_cons]
        simp [hw]
  simpa [countHits] using h ws 0

lemma flip_fold (l : List String) (f : String → Bool) :
    ∀ pn : Int × Int,
      l.foldl (fun pn w => if f w then (pn.1 - 1, pn.2 + 1) else pn) pn
        = (pn.1 - (l.countP f : Int), pn.2 + (l.countP f : Int)) := by
  induction l with
  | nil => intro pn; simp
  | cons w l ih =>
    intro pn
    by_cases hw : f w
    · rw [List.foldl_cons, if_pos hw, ih, List.countP_cons]
      simp only [hw, if_true, Prod.mk.injEq]
      constructor <;> push_cast <;> ring
    · rw [List.foldl_cons, if_neg hw, ih, List.countP_cons]
      simp [hw]

lemma negFlip_eq (t : String) (pn : Int × Int) :
    negFlip t pn = (pn.1 - flipCount t, pn.2 + flipCount t) := by
  have h : ∀ (ns : List String) (pn : Int × Int),
      ns.foldl (fun pn neg =>
          if containsSub neg t then
            positive_words.foldl
              (fun pn w => if flipTrigger t neg w then (pn.1 - 1, pn.2 + 1) else pn) pn
          else pn) pn
        = (pn.1 - (ns.map (fun neg =>
              if containsSub neg t then (positive_words.countP (flipTrigger t neg) : Int)
              else 0)).sum,
           pn.2 + (ns.map (fun neg =>
              if containsSub neg t then (positive_words.countP (flipTrigger t neg) : Int)
              else 0)).sum) := by
    intro ns
    induction ns with
    | nil => intro pn; simp
    | cons neg ns ih =>
      intro pn
      by_cases hn : containsSub neg t
      · rw [List.foldl_cons, if_pos hn, flip_fold, ih, List.map_cons, List.sum_cons]
        simp only [hn, if_true, Prod.mk.injEq]
        constructor <;> ring
      · rw [List.foldl_cons, if_neg hn, ih, List.map_cons, List.sum_cons]
        simp [hn]
  simpa [negFlip, flipCount] using h negations pn

/-- Claim C5: the lexicon strategy counts matches on the lowercased text (so
classification is case-insensitive), the negation pass subtracts each triggered
negation-adjacent positive match from the positive count and adds it to the
negative count, and the label is positive when the positive count strictly
exceeds the negative one, negative in the opposite case, neutral on ties. On
"I love this, not bad at all" no negated positive phrase occurs ("bad" is a
negative-lexicon word, which the negation pass never flips), so the one
positive and one negative match tie and the result is neutral; on
"not good at all" the flip direction shows: the one positive match converts
to a negative count and the result is negative. -/
theorem C5_lexicon_negation_rule :
    (∀ s t : String, lowerS s = lowerS t →
        basic_sentiment_analysis s = basic_sentiment_analysis t)
    ∧ (∀ s : String,
        basicPN s = (countHits positive_words (lowerS s) - flipCount (lowerS s),
                     countHits negative_words (lowerS s) + flipCount (lowerS s)))
    ∧ (∀ s : String, basic_sentiment_analysis s =
        if (basicPN s).1 > (basicPN s).2 then Sentiment.positive
        else if (basicPN s).2 > (basicPN s).1 then Sentiment.negative
        else Sentiment.neutral)
    ∧ analyzeLex "I LOVE This" = Sentiment.positive
    ∧ analyzeLex "I love this, not bad at all" = Sentiment.neutral
    ∧ analyzeLex "not good at all" = Sentiment.negative := by
  refine ⟨?_, ?_, fun s => rfl, by decide, by decide, by decide⟩
  · intro s t h
    simp only [basic_sentiment_analysis, basicPN, h]
  · intro s
    simp only [basicPN, negFlip_eq]

/-- Witness for C5: two casings of the same text classify identically. -/
theorem C5_lexicon_witness :
    basic_sentiment_analysis "GOOD stuff" = basic_sentiment_analysis "good STUFF" :=
  C5_lexicon_negation_rule.1 "GOOD stuff" "good STUFF" (by decide)

/-- Claim C9: before the negation pass, the positive count is the number of
positive-lexicon words occurring as substrings of the lowercased text (each
word counted at most once, substring occurrences inside longer words counted —
"bad" inside "badminton"), symmetrically for the negative count; repeated
adjacent negation phrases can drive the adjusted positive count below zero. -/
theorem C9_raw_counts_substring :
    (∀ s : String, countHits positive_words (lowerS s)
        = (positive_words.countP (fun w => containsSub w (lowerS s)) : Int))
    ∧ (∀ s : String, countHits negative_words (lowerS s)
        = (negative_words.countP (fun w => containsSub w (lowerS s)) : Int))
    ∧ countHits negative_words (lowerS "playing badminton") = 1
    ∧ (basicPN "not nice never nice no nice").1 = -2
    ∧ (basicPN "not nice never nice no nice").1 < 0 := by
  refine ⟨fun s => countHits_eq_countP _ _, fun s => countHits_eq_countP _ _,
    by decide, by decide, by decide⟩

lemma dropLeading_head? :
    ∀ (l : List Char) (x : Char), (dropLeading l).head? = some x → isPySpace x = false := by
  intro l
  induction l with
  | nil => intro x h; simp [dropLeading] at h
  | cons c cs ih =>
    intro x h
    by_cases hc : isPySpace c
    · rw [dropLeading, if_pos hc] at h
      exact ih x h
    · rw [dropLeading, if_neg hc] at h
      simp only [List.head?_cons, Option.some.injEq] at h
      rw [← h]
      simpa using hc

lemma dropLeading_of_head? (l : List Char)
    (h : ∀ x, l.head? = some x → isPySpace x = false) : dropLeading l = l := by
  cases l with
  | nil => rfl
  | cons c cs =>
    have hc := h c rfl
    rw [dropLeading, if_neg (by simp [hc])]

lemma dropLeading_idem (l : List Char) : dropLeading (dropLeading l) = dropLeading l :=
  dropLeading_of_head? _ (dropLeading_head? l)

lemma getLast?_dropLeading :
    ∀ (l : List Char) (x : Char), (dropLeading l).getLast? = some x → l.getLast? = some x := by
  intro l
  induction l with
  | nil => intro x h; simp [dropLeading] at h
  | cons c cs ih =>
    intro x h
    by_cases hc : isPySpace c
    · rw [dropLeading, if_pos hc] at h
      have h2 := ih x h
      cases cs with
      | nil => simp at h2
      | cons b t => rw [List.getLast?_cons_cons]; exact h2
    · rw [dropLeading, if_neg hc] at h
      exact h

lemma stripL_head? (l : List Char) (x : Char) :
    (stripL l).head? = some x → isPySpace x = false := by
  intro h
  unfold stripL at h
  rw [List.head?_reverse] at h
  have h2 := getLast?_dropLeading _ _ h
  rw [List.getLast?_reverse] at h2
  exact dropLeading_head? _ _ h2

lemma stripL_idem (l : List Char) : stripL (stripL l) = stripL l := by
  have h1 : dropLeading (stripL l) = stripL l :=
    dropLeading_of_head? _ (stripL_head? l)
  have h2 : (stripL l).reverse = dropLeading ((dropLeading l).reverse) := by
    unfold stripL
    rw [List.reverse_reverse]
  calc stripL (stripL l)
      = (dropLeading ((dropLeading (stripL l)).reverse)).reverse := rfl
    _ = (dropLeading ((stripL l).reverse)).reverse := by rw [h1]
    _ = (dropLeading (dropLeading ((dropLeading l).reverse))).reverse := by rw [h2]
    _ = (dropLeading ((dropLeading l).reverse)).reverse := by rw [dropLeading_idem]
    _ = stripL l := rfl

lemma pyStrip_idem (s : String) : pyStrip (pyStrip s) = pyStrip s := by
  unfold pyStrip
  exact congrArg String.mk (stripL_idem s.data)

lemma splitCommaL_ne_nil : ∀ l : List Char, splitCommaL l ≠ [] := by
  intro l
  induction l with
  | nil => simp [splitCommaL]
  | cons c cs ih =>
    by_cases hc : c = ','
    · simp [splitCommaL, hc]
    · rw [splitCommaL, if_neg hc]
      cases h : splitCommaL cs with
      | nil => simp
      | cons g gs => simp

/-- Claim C8, counterexample: the parser keeps empty segments, so an update
carrying "a,,b" stores the empty string as a search term, contradicting the
claim that every stored element is non-empty. -/
theorem C8_empty_term_counterexample :
    parseTerms "a,,b" = ["a", "", "b"] ∧ "" ∈ parseTerms "a,,b" := by
  decide

/-- Claim C8 (amended): parsing a comma-separated search_terms string yields
the order-preserving sequence of its comma-delimited segments, each stripped
of surrounding whitespace — in particular "a, b ,c" parses to ["a","b","c"]
and the result is never the empty list — but a segment that is empty or
whitespace-only (from consecutive, leading, or trailing commas) is kept as the
empty string, so stored elements are not guaranteed non-empty. -/
theorem C8_parse_terms_trimmed :
    parseTerms "a, b ,c" = ["a", "b", "c"]
    ∧ (∀ s : String, parseTerms s ≠ [])
    ∧ (∀ s w : String, w ∈ parseTerms s → pyStrip w = w) := by
  refine ⟨by decide, ?_, ?_⟩
  · intro s
    simp only [parseTerms, splitComma, ne_eq, List.map_eq_nil_iff]
    exact splitCommaL_ne_nil s.data
  · intro s w hw
    simp only [parseTerms, List.mem_map] at hw
    obtain ⟨v, hv, rfl⟩ := hw
    exact pyStrip_idem v

/-- Witness for C8: the middle element parsed from "a, b ,c" is already
stripped. -/
theorem C8_parse_terms_witness : pyStrip "b" = "b" :=
  C8_parse_terms_trimmed.2.2 "a, b ,c" "b" (by decide)

lemma twitterGo_gathered (fetch : String → Nat → Except FetchErr (List RawItem)) (m : Nat) :
    ∀ (terms : List String) (acc : List RawItem),
      ∃ P : List String, P <+: terms
        ∧ (∀ t ∈ P, isOkB (fetch t (min m 10)) = true)
        ∧ twitterGo fetch m terms acc = acc ++ gathered fetch m P := by
  intro terms
  induction terms with
  | nil =>
    intro acc
    exact ⟨[], List.nil_prefix, by simp, by simp [twitterGo, gathered]⟩
  | cons t rest ih =>
    intro acc
    cases hf : fetch t (min m 10) with
    | error e =>
      refine ⟨[], List.nil_prefix, by simp, ?_⟩
      simp [twitterGo, hf, gathered]
    | ok items =>
      by_cases hb : m ≤ (acc ++ items).length
      · refine ⟨[t], ⟨rest, rfl⟩, ?_, ?_⟩
        · intro x hx
          simp only [List.mem_singleton] at hx
          subst hx
          simp [isOkB, hf]
        · simp only [twitterGo, hf]
          rw [if_pos hb]
          simp [gathered, okItems, hf]
      · obtain ⟨P, hP, hOk, hEq⟩ := ih (acc ++ items)
        obtain ⟨u, hu⟩ := hP
        refine ⟨t :: P, ⟨u, by simp [hu]⟩, ?_, ?_⟩
        · intro x hx
          rcases List.mem_cons.mp hx with h | h
          · subst h
            simp [isOkB, hf]
          · exact hOk x h
        · simp only [twitterGo, hf]
          rw [if_neg hb, hEq]
          simp [gathered, okItems, hf, List.append_assoc]

/-- Claim C6: neither collector propagates a failure past its boundary. With
no client (missing credentials) both return the empty list. The Twitter
variant's result is always exactly the accumulation over a successful prefix
of the term list (a raised tweepy error is caught and the accumulated results
returned); the Reddit variant catches a per-term error inside the loop and
continues with the remaining terms, so an error costs only that term's items
and nothing accumulated is lost. -/
theorem C6_collect_never_propagates :
    ∀ (fetch : String → Nat → Except FetchErr (List RawItem)) (terms : List String) (m : Nat),
      twitterCollect false fetch terms m = []
      ∧ redditCollect false fetch terms m = []
      ∧ (∃ P : List String, P <+: terms
          ∧ (∀ t ∈ P, isOkB (fetch t (min m 10)) = true)
          ∧ twitterCollect true fetch terms m = gathered fetch m P)
      ∧ (∀ (t : String) (rest : List String) (e : FetchErr),
          fetch t m = Except.error e →
          redditCollect true fetch (t :: rest) m = redditCollect true fetch rest m) := by
  intro fetch terms m
  refine ⟨rfl, rfl, ?_, ?_⟩
  · obtain ⟨P, hP, hOk, hEq⟩ := twitterGo_gathered fetch m terms []
    exact ⟨P, hP, hOk, by simpa [twitterCollect] using hEq⟩
  · intro t rest e hf
    simp [redditCollect, redditGo, hf]

/-- Witness for C6: with an oracle failing on the first term, the Reddit
collector behaves as if that term were skipped. -/
theorem C6_collect_witness :
    redditCollect true errFetch ["a", "b"] 5 = redditCollect true errFetch ["b"] 5 :=
  ((C6_collect_never_propagates errFetch ["a", "b"] 5).2.2.2) "a" ["b"]
    FetchErr.rateLimit rfl

/-- Claim C7, counterexample: with a compliant oracle returning exactly the
requested `max_results = min(max_count, 10)` items per term, the Twitter
collector asked for at most 15 items over two terms appends the second full
batch before its cap check and returns 20 items, exceeding max_count. -/
theorem C7_twitter_over_cap_counterexample :
    (okItems (overFetch "a" (min 15 10))).length ≤ min 15 10
    ∧ (okItems (overFetch "b" (min 15 10))).length ≤ min 15 10
    ∧ (twitterCollect true overFetch ["a", "b"] 15).length = 20
    ∧ ¬((twitterCollect true overFetch ["a", "b"] 15).length ≤ 15) := by
  decide

lemma redditGo_le (fetch : String → Nat → Except FetchErr (List RawItem)) (m : Nat) :
    ∀ (terms : List String) (acc : List RawItem), acc.length ≤ m →
      (redditGo fetch m terms acc).length ≤ m := by
  intro terms
  induction terms with
  | nil =>
    intro acc h
    simpa [redditGo] using h
  | cons t rest ih =>
    intro acc h
    cases hf : fetch t m with
    | error e =>
      simp only [redditGo, hf]
      exact ih acc h
    | ok items =>
      have hlen : (acc ++ items.take (m - acc.length)).length ≤ m := by
        have hmin := Nat.min_le_right items.length (m - acc.length)
        simp only [List.length_append, List.length_take]
        omega
      simp only [redditGo, hf]
      by_cases hb : m ≤ (acc ++ items.take (m - acc.length)).length
      · rw [if_pos hb]
        exact hlen
      · rw [if_neg hb]
        exact ih _ hlen

lemma twitterGo_lt (fetch : String → Nat → Except FetchErr (List RawItem)) (m : Nat)
    (hc : ∀ t, (okItems (fetch t (min m 10))).length ≤ min m 10) :
    ∀ (terms : List String) (acc : List RawItem), acc.length < m →
      (twitterGo fetch m terms acc).length < m + min m 10 := by
  intro terms
  induction terms with
  | nil =>
    intro acc h
    simp only [twitterGo]
    omega
  | cons t rest ih =>
    intro acc h
    cases hf : fetch t (min m 10) with
    | error e =>
      simp only [twitterGo, hf]
      omega
    | ok items =>
      have hi : items.length ≤ min m 10 := by
        have := hc t
        rw [hf] at this
        simpa [okItems] using this
      simp only [twitterGo, hf]
      by_cases hb : m ≤ (acc ++ items).length
      · rw [if_pos hb]
        simp only [List.length_append]
        calc acc.length + items.length < m + items.length := by omega
          _ ≤ m + min m 10 := Nat.add_le_add_left hi m
      · rw [if_neg hb]
        apply ih
        rw [List.length_append]
        simp only [List.length_append] at hb
        omega

/-- Claim C7 (amended): both collectors stop early once the accumulated count
reaches max_count. The Reddit variant enforces the cap per appended item, so
its result never exceeds max_count (any oracle, any terms). The Twitter
variant requests at most min(max_count, 10) per term but appends a whole batch
before checking the cap, so with a positive max_count and per-request
responses bounded by the requested max_results its result can exceed
max_count, though it stays below max_count + min(max_count, 10). -/
theorem C7_cap_amended :
    ∀ (fetch : String → Nat → Except FetchErr (List RawItem)) (terms : List String) (m : Nat),
      (redditCollect true fetch terms m).length ≤ m
      ∧ (redditCollect false fetch terms m).length ≤ m
      ∧ ((∀ t, (okItems (fetch t (min m 10))).length ≤ min m 10) → 0 < m →
          (twitterCollect true fetch terms m).length < m + min m 10) := by
  intro fetch terms m
  refine ⟨?_, by simp [redditCollect], ?_⟩
  · simpa [redditCollect] using redditGo_le fetch m terms [] (by simp)
  · intro hc hm
    simpa [twitterCollect] using twitterGo_lt fetch m hc terms [] (by simpa)

/-- Witness for C7 (amended): the over-cap run of the counterexample stays
below max_count + min(max_count, 10). -/
theorem C7_cap_witness :
    (twitterCollect true overFetch ["a", "b"] 15).length < 15 + min 15 10 :=
  (C7_cap_amended overFetch ["a", "b"] 15).2.2
    (fun t => by simp [overFetch, okItems]) (by decide)

end SA
